import Mathlib

/-!
Shallow embedding of `src/media_release_informer.py`: the date-matching and
report-composition logic of the media release informer, together with proofs
about the claims made by the specification.

The embedding keeps the source's structure: `RadarrAPI` (movie fetch/match),
`SonarrAPI` (episode fetch/match) and `DiscordNotifier` (report composition).
HTTP responses are modelled as `Except` values (an `error` is a
`requests.exceptions.RequestException`), and the per-series enrichment lookup
as a function `Nat → Option Series`. Timestamp strings are parsed by a model
of Python's `datetime.fromisoformat`; `pytz`'s `US/Eastern` timezone is
modelled by the post-2007 United States daylight-saving rule (EST = UTC-5,
EDT = UTC-4, switching at 2 a.m. local time on the second Sunday of March and
the first Sunday of November). A naive datetime (no UTC offset) is converted
by Python relative to the system-local timezone; that timezone is modelled as
a fixed offset parameter `sys` (in minutes), which none of the theorems below
depend on for aware inputs.
-/

/-- Gregorian leap-year test, as `datetime` uses. -/
def isLeapYear (y : Nat) : Bool :=
  y % 4 == 0 && (y % 100 != 0 || y % 400 == 0)

/-- Number of days in month `m` of year `y`. -/
def daysInMonth (y m : Nat) : Nat :=
  if m = 2 then (if isLeapYear y then 29 else 28)
  else if m = 4 ∨ m = 6 ∨ m = 9 ∨ m = 11 then 30
  else 31

/-- Days since the Unix epoch 1970-01-01 for a Gregorian calendar date. -/
def daysFromCivil (y m d : Int) : Int :=
  let y' := if m ≤ 2 then y - 1 else y
  let era := Int.fdiv y' 400
  let yoe := y' - era * 400
  let mp := if m ≤ 2 then m + 9 else m - 3
  let doy := (153 * mp + 2) / 5 + d - 1
  let doe := yoe * 365 + yoe / 4 - yoe / 100 + doy
  era * 146097 + doe - 719468

/-- The Gregorian calendar date (year, month, day) of a days-since-epoch count. -/
def civilFromDays (z : Int) : Int × Int × Int :=
  let z' := z + 719468
  let era := Int.fdiv z' 146097
  let doe := z' - era * 146097
  let yoe := (doe - doe / 1460 + doe / 36524 - doe / 146096) / 365
  let y := yoe + era * 400
  let doy := doe - (365 * yoe + yoe / 4 - yoe / 100)
  let mp := (5 * doy + 2) / 153
  let d := doy - (153 * mp + 2) / 5 + 1
  let m := if mp < 10 then mp + 3 else mp - 9
  (if m ≤ 2 then y + 1 else y, m, d)

/-- Day of the week, Sunday = 0, of a days-since-epoch count (1970-01-01 was a
Thursday). -/
def weekdayOf (days : Int) : Int :=
  Int.emod (days + 4) 7

/-- Day of the month of the first Sunday of month `m` in year `y`. -/
def firstSundayOfMonth (y m : Int) : Int :=
  1 + Int.emod (0 - weekdayOf (daysFromCivil y m 1)) 7

/-- UTC offset (minutes) of the source's `Config.TIMEZONE` (`US/Eastern`) at a
given UTC instant, expressed in minutes since the epoch: EDT (-240) from
2 a.m. EST on the second Sunday of March until 2 a.m. EDT on the first Sunday
of November, EST (-300) otherwise. -/
def easternOffset (utcMin : Int) : Int :=
  let day := Int.fdiv utcMin 1440
  let y := (civilFromDays day).1
  let dstStart := daysFromCivil y 3 (7 + firstSundayOfMonth y 3) * 1440 + 7 * 60
  let dstEnd := daysFromCivil y 11 (firstSundayOfMonth y 11) * 1440 + 6 * 60
  if dstStart ≤ utcMin ∧ utcMin < dstEnd then -240 else -300

/-- A parsed Python `datetime`. `tzOffset` is the UTC offset in minutes;
`none` models a naive datetime. -/
structure PyDateTime where
  year : Nat
  month : Nat
  day : Nat
  hour : Nat
  minute : Nat
  second : Nat
  tzOffset : Option Int
deriving DecidableEq

/-- Minutes since the epoch of the datetime's wall-clock reading (offset not
yet applied). -/
def PyDateTime.totalMinutes (dt : PyDateTime) : Int :=
  daysFromCivil dt.year dt.month dt.day * 1440 + dt.hour * 60 + dt.minute

/-- Python's `date_obj.astimezone(Config.TIMEZONE)`: convert to `US/Eastern`.
A naive datetime is interpreted in the system-local timezone, modelled as the
fixed UTC offset `sys` in minutes. -/
def astimezoneEastern (dt : PyDateTime) (sys : Int) : PyDateTime :=
  let off := dt.tzOffset.getD sys
  let utcMin := dt.totalMinutes - off
  let eoff := easternOffset utcMin
  let localMin := utcMin + eoff
  let ymd := civilFromDays (Int.fdiv localMin 1440)
  let rem := (Int.emod localMin 1440).toNat
  { year := ymd.1.toNat, month := ymd.2.1.toNat, day := ymd.2.2.toNat,
    hour := rem / 60, minute := rem % 60, second := dt.second,
    tzOffset := some eoff }

/-- Zero-pad a number to two digits, as Python's `%02d`, `%I`, `%M` do. -/
def pad2 (n : Nat) : String :=
  if n < 10 then "0" ++ Nat.repr n else Nat.repr n

/-- Zero-pad a number to four digits, as `%Y` does. -/
def pad4 (n : Nat) : String :=
  if n < 10 then "000" ++ Nat.repr n
  else if n < 100 then "00" ++ Nat.repr n
  else if n < 1000 then "0" ++ Nat.repr n
  else Nat.repr n

/-- Python's `strftime('%Y-%m-%d')`. -/
def fmtDate (dt : PyDateTime) : String :=
  pad4 dt.year ++ "-" ++ pad2 dt.month ++ "-" ++ pad2 dt.day

/-- The hour on the 12-hour clock, as `%I` shows it before padding. -/
def hour12 (h : Nat) : Nat :=
  if h % 12 = 0 then 12 else h % 12

/-- Python's `strftime('%I:%M %p EST')` — the source hard-codes the literal
`EST` in the format string. -/
def fmtTime12 (dt : PyDateTime) : String :=
  pad2 (hour12 dt.hour) ++ ":" ++ pad2 dt.minute ++ " " ++
    (if dt.hour < 12 then "AM" else "PM") ++ " EST"

/-- Whether `pat` occurs as a contiguous sublist of `l`. -/
def listInfixOf (pat : List Char) : List Char → Bool
  | [] => pat.isEmpty
  | c :: cs => pat.isPrefixOf (c :: cs) || listInfixOf pat cs

/-- Python's substring test `pat in s`. -/
def containsStr (s pat : String) : Bool :=
  listInfixOf pat.data s.data

/-- Python's `s.startswith(pat)`. -/
def strStartsWith (s pat : String) : Bool :=
  pat.data.isPrefixOf s.data

/-- Numeric value of a decimal digit character. -/
def digitVal (c : Char) : Nat :=
  c.toNat - '0'.toNat

/-- Read exactly `k` decimal digits into a number (most significant first),
returning the value accumulated onto `acc` and the rest of the input. -/
def readNat : Nat → Nat → List Char → Option (Nat × List Char)
  | 0, acc, cs => some (acc, cs)
  | k + 1, acc, c :: cs =>
    if c.isDigit then readNat k (acc * 10 + digitVal c) cs else none
  | _ + 1, _, [] => none

/-- Consume one expected character. -/
def expectChar (c : Char) : List Char → Option (List Char)
  | c' :: cs => if c' = c then some cs else none
  | [] => none

/-- Whether year/month/day form a calendar date Python's `datetime` accepts
(`MINYEAR = 1`, `MAXYEAR = 9999`). -/
def validYMD (y m d : Nat) : Bool :=
  1 ≤ y && y ≤ 9999 && 1 ≤ m && m ≤ 12 && 1 ≤ d && d ≤ daysInMonth y m

/-- Parse a leading `YYYY-MM-DD` and validate it as a calendar date. -/
def parseDatePart (cs : List Char) : Option (Nat × Nat × Nat × List Char) :=
  match readNat 4 0 cs with
  | none => none
  | some (y, cs₁) =>
    match expectChar '-' cs₁ with
    | none => none
    | some cs₂ =>
      match readNat 2 0 cs₂ with
      | none => none
      | some (m, cs₃) =>
        match expectChar '-' cs₃ with
        | none => none
        | some cs₄ =>
          match readNat 2 0 cs₄ with
          | none => none
          | some (d, cs₅) =>
            if validYMD y m d then some (y, m, d, cs₅) else none

/-- Skip a fractional-seconds part: a dot followed by exactly 3 or 6 digits,
as `fromisoformat` accepts. -/
def skipFraction : List Char → Option (List Char)
  | '.' :: cs =>
    let digs := cs.takeWhile Char.isDigit
    if digs.length = 3 ∨ digs.length = 6 then some (cs.drop digs.length) else none
  | cs => some cs

/-- Parse `HH:MM[:SS[.fff[fff]]]` with range validation. -/
def parseTimePart (cs : List Char) : Option (Nat × Nat × Nat × List Char) := do
  let (h, cs) ← readNat 2 0 cs
  let cs ← expectChar ':' cs
  let (mi, cs) ← readNat 2 0 cs
  match cs with
  | ':' :: cs' => do
    let (s, cs'') ← readNat 2 0 cs'
    let cs''' ← skipFraction cs''
    if h ≤ 23 && mi ≤ 59 && s ≤ 59 then some (h, mi, s, cs''') else none
  | rest => if h ≤ 23 && mi ≤ 59 then some (h, mi, 0, rest) else none

/-- Parse an optional trailing UTC offset `±HH:MM[:SS]` (minutes; `none` when
the input carries no offset). -/
def parseOffset : List Char → Option (Option Int × List Char)
  | [] => some (none, [])
  | c :: cs =>
    if c = '+' ∨ c = '-' then do
      let (oh, cs₁) ← readNat 2 0 cs
      let cs₂ ← expectChar ':' cs₁
      let (om, cs₃) ← readNat 2 0 cs₂
      let cs₄ ← match cs₃ with
        | ':' :: r => do
          let (_, r') ← readNat 2 0 r
          pure r'
        | r => pure r
      if oh ≤ 23 && om ≤ 59 then
        let mins : Int := oh * 60 + om
        some (some (if c = '-' then -mins else mins), cs₄)
      else none
    else none

/-- Python's `datetime.fromisoformat` (as used by the source, which always
rewrites a trailing `Z` to `+00:00` first): a bare `YYYY-MM-DD`, or a
date-time `YYYY-MM-DD[T ]HH:MM[:SS[.fff[fff]]][±HH:MM[:SS]]`. -/
def fromisoformat (s : String) : Option PyDateTime := do
  let (y, m, d, cs) ← parseDatePart s.data
  match cs with
  | [] => some ⟨y, m, d, 0, 0, 0, none⟩
  | sep :: rest =>
    if sep = 'T' ∨ sep = ' ' then do
      let (h, mi, sec, cs₁) ← parseTimePart rest
      let (off, cs₂) ← parseOffset cs₁
      if cs₂ = [] then some ⟨y, m, d, h, mi, sec, off⟩ else none
    else none

/-- The expansion of one `'Z'` under Python's `replace('Z', '+00:00')`. -/
def zExpansion : List Char :=
  ['+', '0', '0', ':', '0', '0']

/-- Python's `date_str.replace('Z', '+00:00')`. -/
def replaceZ (s : String) : String :=
  ⟨s.data.flatMap fun c => if c = 'Z' then zExpansion else [c]⟩

/-- The source's parse step for timestamps: rewrite `Z` when present, then
call `fromisoformat`. -/
def pyParseDT (s : String) : Option PyDateTime :=
  if 'Z' ∈ s.data then fromisoformat (replaceZ s) else fromisoformat s

/-- Success of `datetime.strptime(s, '%Y-%m-%d')`: the whole string is one
valid calendar date. -/
def validDateStr (s : String) : Bool :=
  match parseDatePart s.data with
  | some (_, _, _, []) => true
  | _ => false

/-! Data model: the upstream JSON items, with the fields the source reads.
`none` models an absent key (or a JSON `null`, which `dict.get` also returns
as `None`). -/

/-- A Radarr movie item. -/
structure Movie where
  title : Option String
  year : Option Nat
  monitored : Bool
  tmdbId : Option Nat
  digitalRelease : Option String
  physicalRelease : Option String
  inCinemas : Option String
deriving DecidableEq

/-- A Sonarr series object. -/
structure Series where
  title : Option String
  tvdbId : Option Nat
  monitored : Bool
deriving DecidableEq

/-- A Sonarr calendar (episode) item. -/
structure Episode where
  seriesId : Option Nat
  seasonNumber : Option Nat
  episodeNumber : Option Nat
  title : Option String
  airDate : Option String
  airDateUtc : Option String
  monitored : Bool
  series : Option Series
  seriesTitle : Option String
deriving DecidableEq

/-! `RadarrAPI`: movie fetching and date matching. -/

/-- `RadarrAPI._extract_date`: take the text before `'T'` (the whole string
when there is no `'T'`) and validate it as `YYYY-MM-DD`. No timezone
conversion happens here. -/
def radarrExtractDate (f : Option String) : Option String :=
  match f with
  | none => none
  | some s =>
    if s.data.isEmpty then none
    else
      let datePart : String := if 'T' ∈ s.data then ⟨s.data.takeWhile (· != 'T')⟩ else s
      if validDateStr datePart then some datePart else none

/-- The truthiness-guarded substring test `field and today in field`. -/
def fieldContains (f : Option String) (today : String) : Bool :=
  match f with
  | none => false
  | some s => !s.data.isEmpty && containsStr s today

/-- The exact-date step of `RadarrAPI.get_todays_releases`: one of the three
extracted date parts equals today's string. -/
def movieParseMatch (today : String) (m : Movie) : Bool :=
  decide (radarrExtractDate m.digitalRelease = some today
    ∨ radarrExtractDate m.physicalRelease = some today
    ∨ radarrExtractDate m.inCinemas = some today)

/-- The fallback step of `RadarrAPI.get_todays_releases`: some raw field
contains today's `YYYY-MM-DD` string. -/
def movieSubstrMatch (today : String) (m : Movie) : Bool :=
  fieldContains m.digitalRelease today || fieldContains m.physicalRelease today ||
    fieldContains m.inCinemas today

/-- Whether `RadarrAPI.get_todays_releases` keeps a movie: the exact-date
step, then the substring fallback. -/
def movieIsToday (today : String) (m : Movie) : Bool :=
  movieParseMatch today m || movieSubstrMatch today m

/-- `RadarrAPI.get_movies`: an HTTP failure degrades to `[]`; a successful
response is filtered to monitored movies. -/
def getMovies (resp : Except String (List Movie)) : List Movie :=
  match resp with
  | .error _ => []
  | .ok movies => movies.filter (·.monitored)

/-- `RadarrAPI.get_todays_releases` applied to the fetched response. -/
def getTodaysReleases (today : String) (resp : Except String (List Movie)) : List Movie :=
  (getMovies resp).filter (movieIsToday today)

/-! `SonarrAPI`: episode fetching and date matching. -/

/-- `SonarrAPI.get_series`: an HTTP failure degrades to `[]`; a successful
response is filtered to monitored series. -/
def getSeries (resp : Except String (List Series)) : List Series :=
  match resp with
  | .error _ => []
  | .ok ls => ls.filter (·.monitored)

/-- Whether a calendar item already embeds series info with a title
(`'series' in item and 'title' in item.get('series', {})`). -/
def seriesHasTitle (e : Episode) : Bool :=
  match e.series with
  | some s => s.title.isSome
  | none => false

/-- The per-item enrichment inside `SonarrAPI.get_calendar`: when the item
has a `seriesId` and no embedded series title, look the series up; a failed
or non-200 lookup (`lookup sid = none`) leaves the item unchanged. -/
def enrichEpisode (lookup : Nat → Option Series) (e : Episode) : Episode :=
  match e.seriesId with
  | some sid =>
    if seriesHasTitle e then e
    else
      match lookup sid with
      | some s => { e with series := some s }
      | none => e
  | none => e

/-- `SonarrAPI.get_calendar`: an HTTP failure degrades to `[]`; a successful
response is returned with each item enriched. No monitored filter is
applied here. -/
def getCalendar (resp : Except String (List Episode)) (lookup : Nat → Option Series) :
    List Episode :=
  match resp with
  | .error _ => []
  | .ok items => items.map (enrichEpisode lookup)

/-- The truthiness-guarded `air_date and air_date.startswith(today)`. -/
def airDateTruthyStarts (f : Option String) (today : String) : Bool :=
  match f with
  | some s => !s.data.isEmpty && strStartsWith s today
  | none => false

/-- The primary (pre-fallback) check of `SonarrAPI.get_todays_episodes`:
`airDate` starting with today, else the `airDateUtc` branch — parse, convert
to Eastern and compare the calendar date, falling back to `startswith` when
the parse raises. -/
def episodePrimaryMatch (sys : Int) (today : String) (e : Episode) : Bool :=
  if airDateTruthyStarts e.airDate today then true
  else
    match e.airDateUtc with
    | some s =>
      if s.data.isEmpty then false
      else
        match pyParseDT s with
        | some dt => decide (fmtDate (astimezoneEastern dt sys) = today)
        | none => strStartsWith s today
    | none => false

/-- The substring fallback of `SonarrAPI.get_todays_episodes`. -/
def episodeSubstrMatch (today : String) (e : Episode) : Bool :=
  fieldContains e.airDate today || fieldContains e.airDateUtc today

/-- Whether `SonarrAPI.get_todays_episodes` keeps an episode. -/
def episodeIsToday (sys : Int) (today : String) (e : Episode) : Bool :=
  episodePrimaryMatch sys today e || episodeSubstrMatch today e

/-- `SonarrAPI.get_todays_episodes` applied to the fetched calendar. -/
def getTodaysEpisodes (sys : Int) (today : String) (resp : Except String (List Episode))
    (lookup : Nat → Option Series) : List Episode :=
  (getCalendar resp lookup).filter (episodeIsToday sys today)

/-! `DiscordNotifier`: report composition. -/

/-- Concatenation of a list of strings, in order (the `message +=` loop). -/
def concatStrings : List String → String
  | [] => ""
  | s :: rest => s ++ concatStrings rest

/-- `movie.get('title', 'Unknown Title')`. -/
def titleStr (m : Movie) : String :=
  m.title.getD "Unknown Title"

/-- `movie.get('year', 'Unknown Year')`, rendered by the f-string. -/
def yearStr (m : Movie) : String :=
  match m.year with
  | some y => Nat.repr y
  | none => "Unknown Year"

/-- `DiscordNotifier._extract_date`: a `'T'`-string is parsed and converted
to Eastern before taking the date; a bare string is validated and returned
as-is. -/
def dnExtractDate (sys : Int) (f : Option String) : Option String :=
  match f with
  | none => none
  | some s =>
    if s.data.isEmpty then none
    else if 'T' ∈ s.data then
      match pyParseDT s with
      | some dt => some (fmtDate (astimezoneEastern dt sys))
      | none => none
    else if validDateStr s then some s else none

/-- `DiscordNotifier._extract_time`: the Eastern wall-clock time of a
`'T'`-string, formatted `%I:%M %p EST`. -/
def dnExtractTime (sys : Int) (f : Option String) : Option String :=
  match f with
  | none => none
  | some s =>
    if s.data.isEmpty then none
    else if 'T' ∈ s.data then
      match pyParseDT s with
      | some dt => some (fmtTime12 (astimezoneEastern dt sys))
      | none => none
    else none

/-- The release-type labels collected by `send_notification`, in the source's
order: digital, physical, cinema. -/
def movieReleaseTypes (sys : Int) (today : String) (m : Movie) : List String :=
  (if dnExtractDate sys m.digitalRelease = some today then ["Digital"] else []) ++
  (if dnExtractDate sys m.physicalRelease = some today then ["Physical"] else []) ++
  (if dnExtractDate sys m.inCinemas = some today then ["Cinema"] else [])

/-- The time candidate one matched release field contributes: the field must
be truthy and hold a `'T'`, and `_extract_time` must succeed. -/
def timeCandidate (sys : Int) (today : String) (f : Option String) : Option String :=
  if dnExtractDate sys f = some today then
    match f with
    | some s =>
      if !s.data.isEmpty && decide ('T' ∈ s.data) then dnExtractTime sys f else none
    | none => none
  else none

/-- The `release_time` suffix: the first candidate to fire wins (`if t and
not release_time`), checked in digital, physical, cinema order. -/
def movieReleaseTime (sys : Int) (today : String) (m : Movie) : String :=
  let c := (timeCandidate sys today m.digitalRelease).orElse fun _ =>
    (timeCandidate sys today m.physicalRelease).orElse fun _ =>
      timeCandidate sys today m.inCinemas
  match c with
  | some t => " at " ++ t
  | none => ""

/-- `f"{', '.join(release_types)} Release" if release_types else "Released Today"`. -/
def releaseLabel (sys : Int) (today : String) (m : Movie) : String :=
  let types := movieReleaseTypes sys today m
  if types.isEmpty then "Released Today"
  else String.intercalate ", " types ++ " Release"

/-- One movie line of the report. -/
def renderMovieLine (sys : Int) (today : String) (m : Movie) : String :=
  "- **" ++ titleStr m ++ "** (" ++ yearStr m ++ ") - " ++
    releaseLabel sys today m ++ movieReleaseTime sys today m ++ "\n"

/-- The ` - %I:%M %p EST` suffix of an episode line (empty when `airDateUtc`
is missing, empty or unparseable). -/
def episodeAirTime (sys : Int) (e : Episode) : String :=
  match e.airDateUtc with
  | some s =>
    if s.data.isEmpty then ""
    else
      match pyParseDT s with
      | some dt => " - " ++ fmtTime12 (astimezoneEastern dt sys)
      | none => ""
  | none => ""

/-- One episode line of the report. -/
def renderEpisodeLine (sys : Int) (e : Episode) : String :=
  "  - S" ++ pad2 (e.seasonNumber.getD 0) ++ "E" ++ pad2 (e.episodeNumber.getD 0) ++
    " - " ++ e.title.getD "Unknown Episode" ++ episodeAirTime sys e ++ "\n"

/-- The series title an episode groups under: the embedded series object's
title, else the flat `seriesTitle` field, else the fixed placeholder. -/
def episodeSeriesTitle (e : Episode) : String :=
  match e.series with
  | some s => s.title.getD "Unknown Series"
  | none =>
    match e.seriesTitle with
    | some t => t
    | none => "Unknown Series"

/-- Append an episode to its series' group, keeping first-appearance order
of series (Python dict insertion order). -/
def insertGrouped (acc : List (String × List Episode)) (k : String) (e : Episode) :
    List (String × List Episode) :=
  if acc.any (fun p => decide (p.1 = k)) then
    acc.map (fun p => if p.1 = k then (p.1, p.2 ++ [e]) else p)
  else acc ++ [(k, [e])]

/-- The `series_episodes` grouping built by `send_notification`. -/
def groupBySeries (eps : List Episode) : List (String × List Episode) :=
  eps.foldl (fun acc e => insertGrouped acc (episodeSeriesTitle e) e) []

/-- One series group of an episode section. -/
def renderSeriesGroup (sys : Int) (g : String × List Episode) : String :=
  "- **" ++ g.1 ++ "**\n" ++ concatStrings (g.2.map (renderEpisodeLine sys))

/-- One instance's movie section: nothing for an empty list, else a `##`
header and one line per movie. -/
def renderMovieSection (sys : Int) (today : String) (p : String × List Movie) : String :=
  if p.2.isEmpty then ""
  else "## " ++ p.1 ++ "\n" ++ concatStrings (p.2.map (renderMovieLine sys today))

/-- One instance's episode section: nothing for an empty list, else a `##`
header and the grouped episode lines. -/
def renderTvSection (sys : Int) (p : String × List Episode) : String :=
  if p.2.isEmpty then ""
  else "## " ++ p.1 ++ "\n" ++ concatStrings ((groupBySeries p.2).map (renderSeriesGroup sys))

/-- The report's header line. -/
def headerFor (today : String) : String :=
  "# Media Releases for " ++ today ++ "\n\n"

/-- The fixed sentinel line for a day with nothing releasing. -/
def noReleasesLine : String :=
  "No monitored content is being released today.\n"

/-- Whether every instance's list is empty (`not any(...)` in the source). -/
def allListsEmpty {α : Type} (l : List (String × List α)) : Bool :=
  l.all (fun p => p.2.isEmpty)

/-- The header and the instance sections, before the sentinel check. -/
def composeBase (sys : Int) (today : String) (movieReleases : List (String × List Movie))
    (tvReleases : List (String × List Episode)) : String :=
  headerFor today ++
    concatStrings (movieReleases.map (renderMovieSection sys today)) ++
    concatStrings (tvReleases.map (renderTvSection sys))

/-- The full message `DiscordNotifier.send_notification` builds, over the
per-instance movie and episode release lists in configuration order. -/
def composeMessage (sys : Int) (today : String) (movieReleases : List (String × List Movie))
    (tvReleases : List (String × List Episode)) : String :=
  if allListsEmpty movieReleases && allListsEmpty tvReleases then
    composeBase sys today movieReleases tvReleases ++ noReleasesLine
  else composeBase sys today movieReleases tvReleases

/-! Theorems for the specification's claims. -/

/-- C7: for every instance, a failed upstream HTTP fetch (a
`requests.exceptions.RequestException`, modelled as `Except.error`) makes the
fetch operation — movies, series or calendar — return the empty list; the
embedded operations are total functions, so no exception propagates and the
downstream per-instance results are unaffected. -/
theorem spec_c7 (err : String) (lookup : Nat → Option Series) :
    getMovies (.error err) = [] ∧ getSeries (.error err) = [] ∧
    getCalendar (.error err) lookup = [] ∧
    (∀ today, getTodaysReleases today (.error err) = []) ∧
    (∀ sys today, getTodaysEpisodes sys today (.error err) lookup = []) :=
  ⟨rfl, rfl, rfl, fun _ => rfl, fun _ _ => rfl⟩

/-- C4: when no candidate date field of an item matched today through the
parsing path, the matcher (movie or episode) declares a match exactly when
some raw candidate field's text contains today's `YYYY-MM-DD` string as a
substring; in particular a malformed string that does not contain the
substring never produces a match. -/
theorem spec_c4 :
    (∀ (today : String) (m : Movie), movieParseMatch today m = false →
      (movieIsToday today m = true ↔
        (fieldContains m.digitalRelease today = true ∨
          fieldContains m.physicalRelease today = true ∨
          fieldContains m.inCinemas today = true))) ∧
    (∀ (sys : Int) (today : String) (e : Episode),
      episodePrimaryMatch sys today e = false →
      (episodeIsToday sys today e = true ↔
        (fieldContains e.airDate today = true ∨
          fieldContains e.airDateUtc today = true))) := by
  constructor
  · intro today m h
    simp [movieIsToday, movieSubstrMatch, h, Bool.or_eq_true, or_assoc]
  · intro sys today e h
    simp [episodeIsToday, episodeSubstrMatch, h, Bool.or_eq_true]

/-- Witness for C4: a movie and an episode whose malformed date fields fail
to parse but contain today's date substring are matched. -/
theorem spec_c4_witness :
    movieIsToday "2024-03-05"
      ⟨some "B", none, true, none, some "garbage 2024-03-05 x", none, none⟩ = true ∧
    episodeIsToday 0 "2024-03-05"
      ⟨none, some 1, some 2, some "P", some "bad 2024-03-05", none, true, none, none⟩ = true := by
  constructor
  · exact (spec_c4.1 "2024-03-05" _ (by decide)).mpr (Or.inl (by decide))
  · exact (spec_c4.2 0 "2024-03-05" _ (by decide)).mpr (Or.inl (by decide))

/-- C5: an episode with no usable `airDate` whose `airDateUtc` parses is
matched exactly on the Eastern calendar date of that instant; the witness
instantiates the claim's two boundary timestamps (`2024-03-06T02:00:00Z` and
`2024-03-05T23:30:00Z`, both matching local date `2024-03-05`). -/
theorem spec_c5 (sys : Int) (today : String) (e : Episode) (s : String) (dt : PyDateTime)
    (had : e.airDate = none) (hutc : e.airDateUtc = some s)
    (hne : s.data.isEmpty = false) (hparse : pyParseDT s = some dt)
    (hdate : fmtDate (astimezoneEastern dt sys) = today) :
    episodeIsToday sys today e = true := by
  simp [episodeIsToday, episodePrimaryMatch, airDateTruthyStarts, had, hutc, hne,
    hparse, hdate]

/-- Witness for C5: the claim's two UTC-vs-local boundary examples. -/
theorem spec_c5_witness :
    episodeIsToday 0 "2024-03-05"
      ⟨none, some 1, some 2, some "Pilot", none, some "2024-03-06T02:00:00Z",
        true, none, none⟩ = true ∧
    episodeIsToday 0 "2024-03-05"
      ⟨none, some 1, some 2, some "Pilot", none, some "2024-03-05T23:30:00Z",
        true, none, none⟩ = true := by
  constructor
  · exact spec_c5 0 "2024-03-05" _ "2024-03-06T02:00:00Z" ⟨2024, 3, 6, 2, 0, 0, some 0⟩
      rfl rfl (by decide) (by decide) (by decide)
  · exact spec_c5 0 "2024-03-05" _ "2024-03-05T23:30:00Z" ⟨2024, 3, 5, 23, 30, 0, some 0⟩
      rfl rfl (by decide) (by decide) (by decide)

/-- Counterexample to C2 as stated: an episode with `monitored = false` whose
`airDate` is today is returned by the episode path — the calendar fetch and
the today-matching apply no monitored filter. -/
theorem spec_c2_counterexample :
    getTodaysEpisodes 0 "2024-03-05"
      (.ok [⟨none, some 1, some 2, some "Pilot", some "2024-03-05", none, false, none, none⟩])
      (fun _ => none) =
      [⟨none, some 1, some 2, some "Pilot", some "2024-03-05", none, false, none, none⟩] ∧
    Episode.monitored
      ⟨none, some 1, some 2, some "Pilot", some "2024-03-05", none, false, none, none⟩ =
      false :=
  ⟨by decide, rfl⟩

/-- C2 as amended: the movie fetch filters to monitored movies, so every
returned movie is monitored; the episode path applies no monitored filter —
membership in the calendar response together with a date match alone puts an
episode (monitored or not) into the returned list. -/
theorem spec_c2 :
    (∀ (today : String) (resp : Except String (List Movie)) (m : Movie),
      m ∈ getTodaysReleases today resp → m.monitored = true) ∧
    (∀ (sys : Int) (today : String) (lookup : Nat → Option Series)
      (items : List Episode) (e : Episode),
      e ∈ getCalendar (.ok items) lookup → episodeIsToday sys today e = true →
      e ∈ getTodaysEpisodes sys today (.ok items) lookup) := by
  constructor
  · intro today resp m hm
    have hm' := (List.mem_filter.mp hm).1
    cases resp with
    | error err => simp [getMovies] at hm'
    | ok movies => exact (List.mem_filter.mp hm').2
  · intro sys today lookup items e he ht
    exact List.mem_filter.mpr ⟨he, ht⟩

/-- Witness for C2 as amended: a monitored movie passes the filter, and an
unmonitored episode in the calendar response airing today is included. -/
theorem spec_c2_witness :
    Movie.monitored ⟨some "A", some 2000, true, none, some "2024-03-05", none, none⟩ = true ∧
    (⟨none, some 1, some 2, some "Pilot", some "2024-03-05", none, false, none, none⟩ : Episode) ∈
      getTodaysEpisodes 0 "2024-03-05"
        (.ok [⟨none, some 1, some 2, some "Pilot", some "2024-03-05", none, false, none, none⟩])
        (fun _ => none) := by
  constructor
  · exact spec_c2.1 "2024-03-05"
      (.ok [⟨some "A", some 2000, true, none, some "2024-03-05", none, none⟩]) _ (by decide)
  · exact spec_c2.2 0 "2024-03-05" (fun _ => none) _ _ (by decide) (by decide)

/-- Counterexample to C3 as stated: a matched movie carrying `tmdbId = 603`
renders to a line with no movie-database deep link at all (the source's
movie rendering never reads `tmdbId`). -/
theorem spec_c3_counterexample :
    movieIsToday "2024-03-05"
      ⟨some "The Matrix", some 1999, true, some 603, some "2024-03-05", none, none⟩ = true ∧
    renderMovieLine 0 "2024-03-05"
      ⟨some "The Matrix", some 1999, true, some 603, some "2024-03-05", none, none⟩ =
      "- **The Matrix** (1999) - Digital Release\n" ∧
    containsStr "- **The Matrix** (1999) - Digital Release\n" "themoviedb" = false := by
  exact ⟨by decide, by decide, by decide⟩

/-- C3 as amended: the rendered movie line never depends on the external
movie-database id — no deep link is appended whether or not `tmdbId` is
present. -/
theorem spec_c3 (sys : Int) (today : String) (m : Movie) (a b : Option Nat) :
    renderMovieLine sys today { m with tmdbId := a } =
      renderMovieLine sys today { m with tmdbId := b } := rfl

/-! Helper lemmas about the date parser, used for C1. -/

theorem readNat_split : ∀ (k acc v : Nat) (cs rest : List Char),
    readNat k acc cs = some (v, rest) →
    ∃ pre, cs = pre ++ rest ∧ ∀ c ∈ pre, c.isDigit = true := by
  intro k
  induction k with
  | zero =>
    intro acc v cs rest h
    simp only [readNat, Option.some.injEq, Prod.mk.injEq] at h
    exact ⟨[], by simp [h.2], by simp⟩
  | succ k ih =>
    intro acc v cs rest h
    cases cs with
    | nil => simp [readNat] at h
    | cons c cs' =>
      simp only [readNat] at h
      split at h
      · obtain ⟨pre, hpre, hdig⟩ := ih _ _ _ _ h
        refine ⟨c :: pre, by rw [hpre, List.cons_append], ?_⟩
        intro x hx
        rcases List.mem_cons.mp hx with rfl | hx'
        · assumption
        · exact hdig x hx'
      · simp at h

theorem expectChar_split {ch : Char} {cs rest : List Char}
    (h : expectChar ch cs = some rest) : cs = ch :: rest := by
  cases cs with
  | nil => simp [expectChar] at h
  | cons c cs' =>
    simp only [expectChar] at h
    split at h
    · rename_i hc
      injection h with h'
      rw [hc, h']
    · simp at h

theorem parseDatePart_split {cs : List Char} {y m d : Nat} {rest : List Char}
    (h : parseDatePart cs = some (y, m, d, rest)) :
    ∃ p1 p2 p3, cs = p1 ++ '-' :: (p2 ++ '-' :: (p3 ++ rest)) ∧
      (∀ c ∈ p1, c.isDigit = true) ∧ (∀ c ∈ p2, c.isDigit = true) ∧
      (∀ c ∈ p3, c.isDigit = true) := by
  unfold parseDatePart at h
  split at h
  · simp at h
  rename_i y1 cs1 h1
  split at h
  · simp at h
  rename_i cs2 hc1
  split at h
  · simp at h
  rename_i m1 cs3 h2
  split at h
  · simp at h
  rename_i cs4 hc2
  split at h
  · simp at h
  rename_i d1 cs5 h3
  split at h
  · injection h with h'
    simp only [Prod.mk.injEq] at h'
    obtain ⟨-, -, -, hrest⟩ := h'
    obtain ⟨p1, hp1, hd1⟩ := readNat_split _ _ _ _ _ h1
    obtain ⟨p2, hp2, hd2⟩ := readNat_split _ _ _ _ _ h2
    obtain ⟨p3, hp3, hd3⟩ := readNat_split _ _ _ _ _ h3
    refine ⟨p1, p2, p3, ?_, hd1, hd2, hd3⟩
    rw [hp1, expectChar_split hc1, hp2, expectChar_split hc2, hp3, hrest]
  · simp at h

theorem validDateStr_no_T {s : String} (h : validDateStr s = true) : 'T' ∉ s.data := by
  unfold validDateStr at h
  split at h
  · rename_i y m d heq
    obtain ⟨p1, p2, p3, hcs, h1, h2, h3⟩ := parseDatePart_split heq
    rw [hcs]
    intro hmem
    rcases List.mem_append.mp hmem with hm | hm
    · exact absurd (h1 _ hm) (by decide)
    rcases List.mem_cons.mp hm with he | hm
    · exact absurd he (by decide)
    rcases List.mem_append.mp hm with hm | hm
    · exact absurd (h2 _ hm) (by decide)
    rcases List.mem_cons.mp hm with he | hm
    · exact absurd he (by decide)
    rcases List.mem_append.mp hm with hm | hm
    · exact absurd (h3 _ hm) (by decide)
    · simp at hm
  · simp at h

theorem takeWhile_append_T (l₂ : List Char) :
    ∀ l₁ : List Char, (∀ c ∈ l₁, c ≠ 'T') →
      (l₁ ++ 'T' :: l₂).takeWhile (fun c => c != 'T') = l₁
  | [], _ => by simp
  | c :: l₁', h => by
    have hc : c ≠ 'T' := h c (List.mem_cons_self ..)
    have ih := takeWhile_append_T l₂ l₁' fun x hx => h x (List.mem_cons_of_mem _ hx)
    simp [List.takeWhile_cons, bne_iff_ne, hc, ih]

theorem data_append_T (d t : String) :
    (d ++ "T" ++ t).data = d.data ++ 'T' :: t.data := by
  rw [String.data_append, String.data_append]
  show (d.data ++ ['T']) ++ t.data = _
  simp

theorem radarrExtractDate_before_T {d t : String} (hv : validDateStr d = true) :
    radarrExtractDate (some (d ++ "T" ++ t)) = some d := by
  have hnoT := validDateStr_no_T hv
  have hdata := data_append_T d t
  have hne : ((d ++ "T" ++ t)).data.isEmpty = false := by
    rw [hdata]
    cases d.data <;> simp
  have hmem : 'T' ∈ (d ++ "T" ++ t).data := by
    rw [hdata]
    exact List.mem_append.mpr (Or.inr (List.mem_cons_self ..))
  have htake : ((d ++ "T" ++ t)).data.takeWhile (fun c => c != 'T') = d.data := by
    rw [hdata]
    exact takeWhile_append_T t.data d.data fun c hc hceq => hnoT (hceq ▸ hc)
  simp only [radarrExtractDate]
  simp only [hne, Bool.false_eq_true, if_false]
  simp only [hmem, if_true]
  rw [htake]
  show (if validDateStr d = true then some d else none) = some d
  rw [hv]
  simp

/-- Counterexample to C1 as stated: the only date field is the UTC timestamp
`2024-03-06T02:00:00Z`, whose Eastern calendar date is `2024-03-05` (second
conjunct, computed by the source's own converting extractor
`DiscordNotifier._extract_date`); yet the movie matcher does not match it on
`2024-03-05` and does match it on the raw UTC date part `2024-03-06`. -/
theorem spec_c1_counterexample :
    movieIsToday "2024-03-05"
      ⟨some "X", some 2020, true, none, some "2024-03-06T02:00:00Z", none, none⟩ = false ∧
    dnExtractDate 0 (some "2024-03-06T02:00:00Z") = some "2024-03-05" ∧
    movieIsToday "2024-03-06"
      ⟨some "X", some 2020, true, none, some "2024-03-06T02:00:00Z", none, none⟩ = true :=
  ⟨by decide, by decide, by decide⟩

/-- C1 as amended: `RadarrAPI._extract_date` performs no timezone conversion
— for a movie whose only date field is a date-time string, the matcher
matches exactly when the raw date part before the `'T'` equals today, or
today occurs in the raw text (the substring fallback). A movie whose UTC
calendar date differs from its Eastern calendar date is therefore matched on
the raw UTC date part, not the Eastern date. -/
theorem spec_c1 (today dateStr tail : String) (m : Movie)
    (hv : validDateStr dateStr = true)
    (h1 : m.digitalRelease = some (dateStr ++ "T" ++ tail))
    (h2 : m.physicalRelease = none) (h3 : m.inCinemas = none) :
    movieIsToday today m = true ↔
      (dateStr = today ∨ containsStr (dateStr ++ "T" ++ tail) today = true) := by
  have hne : ((dateStr ++ "T" ++ tail)).data.isEmpty = false := by
    rw [data_append_T]
    cases dateStr.data <;> simp
  unfold movieIsToday movieParseMatch movieSubstrMatch fieldContains
  rw [h1, h2, h3, radarrExtractDate_before_T hv]
  simp [radarrExtractDate, hne, decide_eq_true_eq, Bool.or_eq_true]

/-- Witness for C1 as amended: the matcher matches the raw UTC date part. -/
theorem spec_c1_witness :
    movieIsToday "2024-03-06"
      ⟨some "X", some 2020, true, none,
        some ("2024-03-06" ++ "T" ++ "02:00:00Z"), none, none⟩ = true :=
  (spec_c1 "2024-03-06" "2024-03-06" "02:00:00Z" _ (by decide) rfl rfl rfl).mpr
    (Or.inl rfl)

/-! Helper lemmas about report composition, used for C6. -/

theorem concatStrings_eq_empty {l : List String} (h : ∀ x ∈ l, x = "") :
    concatStrings l = "" := by
  induction l with
  | nil => rfl
  | cons s rest ih =>
    have hs := h s (List.mem_cons_self ..)
    have hr := ih fun x hx => h x (List.mem_cons_of_mem _ hx)
    show s ++ concatStrings rest = ""
    rw [hs, hr]
    rfl

/-- A string that is empty or whose first character is `'#'`. -/
def hashHeaded (s : String) : Prop :=
  s.data = [] ∨ ∃ r, s.data = '#' :: r

theorem hashHeaded_append {a b : String} (ha : hashHeaded a) (hb : hashHeaded b) :
    hashHeaded (a ++ b) := by
  rcases ha with ha | ⟨r, hr⟩
  · rcases hb with hb | ⟨r, hr⟩
    · exact Or.inl (by rw [String.data_append, ha, hb]; rfl)
    · exact Or.inr ⟨r, by rw [String.data_append, ha, hr]; rfl⟩
  · exact Or.inr ⟨r ++ b.data, by rw [String.data_append, hr]; rfl⟩

theorem hashHeaded_concat {l : List String} (h : ∀ x ∈ l, hashHeaded x) :
    hashHeaded (concatStrings l) := by
  induction l with
  | nil => exact Or.inl rfl
  | cons s rest ih =>
    exact hashHeaded_append (h s (List.mem_cons_self ..))
      (ih fun x hx => h x (List.mem_cons_of_mem _ hx))

theorem concatStrings_ne_nil : ∀ {l : List String} {x : String}, x ∈ l → x.data ≠ [] →
    (concatStrings l).data ≠ []
  | [], x, hx, _ => absurd hx (List.not_mem_nil x)
  | s :: rest, x, hx, hne => by
    show (s ++ concatStrings rest).data ≠ []
    rw [String.data_append]
    intro hc
    rcases List.mem_cons.mp hx with rfl | hx'
    · exact hne (List.append_eq_nil.mp hc).1
    · exact concatStrings_ne_nil hx' hne (List.append_eq_nil.mp hc).2

theorem renderMovieSection_hashHeaded (sys : Int) (today : String)
    (p : String × List Movie) : hashHeaded (renderMovieSection sys today p) := by
  unfold renderMovieSection
  split
  · exact Or.inl rfl
  · exact Or.inr ⟨_, rfl⟩

theorem renderTvSection_hashHeaded (sys : Int) (p : String × List Episode) :
    hashHeaded (renderTvSection sys p) := by
  unfold renderTvSection
  split
  · exact Or.inl rfl
  · exact Or.inr ⟨_, rfl⟩

theorem renderMovieSection_ne_nil {sys : Int} {today : String} {p : String × List Movie}
    (hpe : p.2.isEmpty = false) : (renderMovieSection sys today p).data ≠ [] := by
  unfold renderMovieSection
  rw [hpe]
  simp

theorem renderTvSection_ne_nil {sys : Int} {p : String × List Episode}
    (hpe : p.2.isEmpty = false) : (renderTvSection sys p).data ≠ [] := by
  unfold renderTvSection
  rw [hpe]
  simp

theorem allListsEmpty_false {α : Type} {l : List (String × List α)}
    (h : allListsEmpty l = false) : ∃ p ∈ l, p.2.isEmpty = false := by
  unfold allListsEmpty at h
  rcases List.all_eq_false.mp h with ⟨p, hp, hpe⟩
  exact ⟨p, hp, Bool.not_eq_true _ ▸ Bool.of_not_eq_true hpe⟩

theorem composeBase_ne_sentinel (sys : Int) (today : String)
    (mr : List (String × List Movie)) (tv : List (String × List Episode))
    (hor : allListsEmpty mr = false ∨ allListsEmpty tv = false) :
    composeBase sys today mr tv ≠ headerFor today ++ noReleasesLine := by
  intro heq
  have hd := congrArg String.data heq
  unfold composeBase at hd
  rw [String.data_append, String.data_append, String.data_append,
    List.append_assoc] at hd
  have hcore := List.append_cancel_left hd
  have hhm : hashHeaded (concatStrings (mr.map (renderMovieSection sys today))) := by
    apply hashHeaded_concat
    intro x hx
    obtain ⟨p, hp, rfl⟩ := List.mem_map.mp hx
    exact renderMovieSection_hashHeaded sys today p
  have hht : hashHeaded (concatStrings (tv.map (renderTvSection sys))) := by
    apply hashHeaded_concat
    intro x hx
    obtain ⟨p, hp, rfl⟩ := List.mem_map.mp hx
    exact renderTvSection_hashHeaded sys p
  have hne2 : (concatStrings (mr.map (renderMovieSection sys today))).data ++
      (concatStrings (tv.map (renderTvSection sys))).data ≠ [] := by
    intro hnil
    rcases hor with h | h
    · obtain ⟨p, hp, hpe⟩ := allListsEmpty_false h
      exact concatStrings_ne_nil (List.mem_map_of_mem _ hp)
        (renderMovieSection_ne_nil hpe) (List.append_eq_nil.mp hnil).1
    · obtain ⟨p, hp, hpe⟩ := allListsEmpty_false h
      exact concatStrings_ne_nil (List.mem_map_of_mem _ hp)
        (renderTvSection_ne_nil hpe) (List.append_eq_nil.mp hnil).2
  rcases hashHeaded_append hhm hht with hz | ⟨r, hr⟩
  · rw [String.data_append] at hz
    exact hne2 hz
  · rw [String.data_append] at hr
    rw [hr] at hcore
    have hN : noReleasesLine.data =
        'N' :: ("o monitored content is being released today.\n").data := rfl
    rw [hN] at hcore
    injection hcore with h1 _
    exact absurd h1 (by decide)

/-- C6: the composed report is exactly the header followed by the fixed
"nothing releasing" sentinel line precisely when every instance's movie list
and every instance's episode list is empty; in that case no instance section
is rendered, since the whole message is that one exact string. -/
theorem spec_c6 (sys : Int) (today : String) (mr : List (String × List Movie))
    (tv : List (String × List Episode)) :
    composeMessage sys today mr tv = headerFor today ++ noReleasesLine ↔
      (allListsEmpty mr = true ∧ allListsEmpty tv = true) := by
  constructor
  · intro h
    by_cases hmr : allListsEmpty mr = true
    · by_cases htv : allListsEmpty tv = true
      · exact ⟨hmr, htv⟩
      · exfalso
        have htv' : allListsEmpty tv = false := Bool.of_not_eq_true htv
        have hcond : (allListsEmpty mr && allListsEmpty tv) = false := by
          rw [hmr, htv']
          rfl
        unfold composeMessage at h
        rw [hcond] at h
        simp only [Bool.false_eq_true, if_false] at h
        exact composeBase_ne_sentinel sys today mr tv (Or.inr htv') h
    · exfalso
      have hmr' : allListsEmpty mr = false := Bool.of_not_eq_true hmr
      have hcond : (allListsEmpty mr && allListsEmpty tv) = false := by
        rw [hmr']
        rfl
      unfold composeMessage at h
      rw [hcond] at h
      simp only [Bool.false_eq_true, if_false] at h
      exact composeBase_ne_sentinel sys today mr tv (Or.inl hmr') h
  · rintro ⟨hmr, htv⟩
    have hm0 : concatStrings (mr.map (renderMovieSection sys today)) = "" := by
      apply concatStrings_eq_empty
      intro x hx
      obtain ⟨p, hp, rfl⟩ := List.mem_map.mp hx
      have hpe : p.2.isEmpty = true := List.all_eq_true.mp hmr p hp
      unfold renderMovieSection
      rw [hpe]
      rfl
    have ht0 : concatStrings (tv.map (renderTvSection sys)) = "" := by
      apply concatStrings_eq_empty
      intro x hx
      obtain ⟨p, hp, rfl⟩ := List.mem_map.mp hx
      have hpe : p.2.isEmpty = true := List.all_eq_true.mp htv p hp
      unfold renderTvSection
      rw [hpe]
      rfl
    unfold composeMessage
    rw [hmr, htv]
    simp only [Bool.and_self, if_true]
    unfold composeBase
    rw [hm0, ht0, String.append_empty, String.append_empty]

/-! Helper lemmas about newline-free rendering pieces, used for C8-C10. -/

/-- A string none of whose characters is a newline. -/
def nlFree (s : String) : Prop :=
  ∀ c ∈ s.data, c ≠ '\n'

theorem nlFree_of_all {s : String} (h : s.data.all (fun c => c != '\n') = true) :
    nlFree s := by
  intro c hc
  simpa using List.all_eq_true.mp h c hc

theorem nlFree_append {a b : String} (ha : nlFree a) (hb : nlFree b) :
    nlFree (a ++ b) := by
  intro c hc
  rw [String.data_append] at hc
  rcases List.mem_append.mp hc with h | h
  · exact ha c h
  · exact hb c h

theorem nlFree_count {s : String} (h : nlFree s) : s.data.count '\n' = 0 :=
  List.count_eq_zero.mpr fun hmem => h _ hmem rfl

theorem digitChar_mod10_ne_newline (n : Nat) : Nat.digitChar (n % 10) ≠ '\n' := by
  have hsmall : ∀ k, k < 10 → Nat.digitChar k ≠ '\n' := by decide
  exact hsmall _ (Nat.mod_lt _ (by norm_num))

theorem toDigitsCore_ne_newline :
    ∀ (fuel n : Nat) (ds : List Char), (∀ c ∈ ds, c ≠ '\n') →
      ∀ c ∈ Nat.toDigitsCore 10 fuel n ds, c ≠ '\n' := by
  intro fuel
  induction fuel with
  | zero => intro n ds hds; exact hds
  | succ fuel ih =>
    intro n ds hds c hc
    change c ∈ (if n / 10 = 0 then Nat.digitChar (n % 10) :: ds
      else Nat.toDigitsCore 10 fuel (n / 10) (Nat.digitChar (n % 10) :: ds)) at hc
    have hcons : ∀ x ∈ Nat.digitChar (n % 10) :: ds, x ≠ '\n' := by
      intro x hx
      rcases List.mem_cons.mp hx with rfl | hx'
      · exact digitChar_mod10_ne_newline _
      · exact hds x hx'
    by_cases hz : n / 10 = 0
    · rw [if_pos hz] at hc
      exact hcons c hc
    · rw [if_neg hz] at hc
      exact ih _ _ hcons c hc

theorem nlFree_repr (n : Nat) : nlFree (Nat.repr n) := by
  intro c hc
  have hdata : (Nat.repr n).data = Nat.toDigitsCore 10 (n + 1) n [] := rfl
  rw [hdata] at hc
  exact toDigitsCore_ne_newline (n + 1) n [] (by simp) c hc

theorem nlFree_pad2 (n : Nat) : nlFree (pad2 n) := by
  unfold pad2
  split
  · exact nlFree_append (nlFree_of_all (by decide)) (nlFree_repr n)
  · exact nlFree_repr n

theorem nlFree_yearStr (m : Movie) : nlFree (yearStr m) := by
  unfold yearStr
  split
  · exact nlFree_repr _
  · exact nlFree_of_all (by decide)

theorem nlFree_fmtTime12 (dt : PyDateTime) : nlFree (fmtTime12 dt) := by
  unfold fmtTime12
  refine nlFree_append (nlFree_append (nlFree_append (nlFree_append
    (nlFree_append (nlFree_pad2 _) ?_) (nlFree_pad2 _)) ?_) ?_) ?_
  · exact nlFree_of_all (by decide)
  · exact nlFree_of_all (by decide)
  · split <;> exact nlFree_of_all (by decide)
  · exact nlFree_of_all (by decide)

theorem dnExtractTime_shape {sys : Int} {f : Option String} {t : String}
    (h : dnExtractTime sys f = some t) : ∃ dt, t = fmtTime12 dt := by
  unfold dnExtractTime at h
  split at h
  · simp at h
  split at h
  · simp at h
  split at h
  · split at h
    · injection h with h'
      exact ⟨_, h'.symm⟩
    · simp at h
  · simp at h

theorem timeCandidate_shape {sys : Int} {today : String} {f : Option String} {t : String}
    (h : timeCandidate sys today f = some t) : ∃ dt, t = fmtTime12 dt := by
  unfold timeCandidate at h
  split at h
  · split at h
    · split at h
      · exact dnExtractTime_shape h
      · simp at h
    · simp at h
  · simp at h

theorem nlFree_movieReleaseTime (sys : Int) (today : String) (m : Movie) :
    nlFree (movieReleaseTime sys today m) := by
  unfold movieReleaseTime
  cases h1 : timeCandidate sys today m.digitalRelease with
  | some t =>
    simp only [h1, Option.orElse]
    obtain ⟨dt, rfl⟩ := timeCandidate_shape h1
    exact nlFree_append (nlFree_of_all (by decide)) (nlFree_fmtTime12 dt)
  | none =>
    simp only [h1, Option.orElse]
    cases h2 : timeCandidate sys today m.physicalRelease with
    | some t =>
      simp only [h2, Option.orElse]
      obtain ⟨dt, rfl⟩ := timeCandidate_shape h2
      exact nlFree_append (nlFree_of_all (by decide)) (nlFree_fmtTime12 dt)
    | none =>
      simp only [h2, Option.orElse]
      cases h3 : timeCandidate sys today m.inCinemas with
      | some t =>
        simp only [h3, Option.orElse]
        obtain ⟨dt, rfl⟩ := timeCandidate_shape h3
        exact nlFree_append (nlFree_of_all (by decide)) (nlFree_fmtTime12 dt)
      | none =>
        simp only [h3, Option.orElse]
        intro c hc
        simp at hc

theorem astimezone_minute_lt (dt : PyDateTime) (sys : Int) :
    (astimezoneEastern dt sys).minute < 60 :=
  Nat.mod_lt _ (by norm_num)

theorem pad2_length {n : Nat} (h : n < 100) : (pad2 n).length = 2 := by
  have hrepr : ∀ k, k < 100 →
      ((10 ≤ k → (Nat.repr k).length = 2) ∧ (k < 10 → (Nat.repr k).length = 1)) := by
    decide
  unfold pad2
  split
  · rename_i h10
    rw [String.length_append, (hrepr n h).2 h10]
    rfl
  · rename_i h10
    exact (hrepr n h).1 (Nat.le_of_not_lt h10)

theorem hour12_pos (h : Nat) : 1 ≤ hour12 h ∧ hour12 h ≤ 12 := by
  unfold hour12
  split
  · exact ⟨by norm_num, le_refl _⟩
  · rename_i hz
    exact ⟨Nat.one_le_iff_ne_zero.mpr hz, Nat.le_of_lt (Nat.mod_lt _ (by norm_num))⟩

/-- C8: a movie whose digital and physical dates (as the composer extracts
them) equal today while the cinema date does not renders to one line whose
single label is the comma-joined `"Digital, Physical Release"`; with a
newline-free title the whole rendering holds exactly one newline, so the
movie never spans several lines. -/
theorem spec_c8 (sys : Int) (today : String) (m : Movie)
    (h1 : dnExtractDate sys m.digitalRelease = some today)
    (h2 : dnExtractDate sys m.physicalRelease = some today)
    (h3 : dnExtractDate sys m.inCinemas ≠ some today) :
    renderMovieLine sys today m =
      "- **" ++ titleStr m ++ "** (" ++ yearStr m ++ ") - " ++
        "Digital, Physical Release" ++ movieReleaseTime sys today m ++ "\n" ∧
    ((∀ c ∈ (titleStr m).data, c ≠ '\n') →
      (renderMovieLine sys today m).data.count '\n' = 1) := by
  have hlabel : releaseLabel sys today m = "Digital, Physical Release" := by
    unfold releaseLabel movieReleaseTypes
    rw [if_pos h1, if_pos h2, if_neg h3]
    rfl
  constructor
  · unfold renderMovieLine
    rw [hlabel]
  · intro ht
    unfold renderMovieLine
    rw [hlabel]
    simp only [String.data_append, List.count_append]
    rw [nlFree_count ht, nlFree_count (nlFree_yearStr m),
      nlFree_count (nlFree_movieReleaseTime sys today m)]
    decide

/-- Witness for C8: both digital and physical dates fall on today. -/
theorem spec_c8_witness :
    renderMovieLine 0 "2024-03-05"
      ⟨some "AAA", some 2000, true, none, some "2024-03-05", some "2024-03-05", none⟩ =
      "- **AAA** (2000) - Digital, Physical Release\n" ∧
    (renderMovieLine 0 "2024-03-05"
      ⟨some "AAA", some 2000, true, none, some "2024-03-05", some "2024-03-05", none⟩).data.count
        '\n' = 1 := by
  have h := spec_c8 0 "2024-03-05"
    ⟨some "AAA", some 2000, true, none, some "2024-03-05", some "2024-03-05", none⟩
    (by decide) (by decide) (by decide)
  refine ⟨?_, h.2 (by decide)⟩
  rw [h.1]
  decide

/-- C9: an episode whose nonempty `airDateUtc` parses renders with a suffix
holding the Eastern wall-clock time on a 12-hour clock (`hour12` between 1
and 12), a zero-padded two-character minute field, an AM/PM marker and the
abbreviation `EST` that the source's format string carries. -/
theorem spec_c9 (sys : Int) (e : Episode) (s : String) (dt : PyDateTime)
    (hutc : e.airDateUtc = some s) (hne : s.data.isEmpty = false)
    (hparse : pyParseDT s = some dt) :
    renderEpisodeLine sys e =
      "  - S" ++ pad2 (e.seasonNumber.getD 0) ++ "E" ++ pad2 (e.episodeNumber.getD 0) ++
        " - " ++ e.title.getD "Unknown Episode" ++
        (" - " ++ (pad2 (hour12 (astimezoneEastern dt sys).hour) ++ ":" ++
          pad2 (astimezoneEastern dt sys).minute ++ " " ++
          (if (astimezoneEastern dt sys).hour < 12 then "AM" else "PM") ++ " EST")) ++
        "\n" ∧
    (pad2 (astimezoneEastern dt sys).minute).length = 2 ∧
    1 ≤ hour12 (astimezoneEastern dt sys).hour ∧
    hour12 (astimezoneEastern dt sys).hour ≤ 12 := by
  refine ⟨?_, pad2_length (Nat.lt_trans (astimezone_minute_lt dt sys) (by norm_num)),
    (hour12_pos _).1, (hour12_pos _).2⟩
  have hair : episodeAirTime sys e = " - " ++ fmtTime12 (astimezoneEastern dt sys) := by
    unfold episodeAirTime
    rw [hutc]
    simp only [hne, Bool.false_eq_true, if_false]
    rw [hparse]
  unfold renderEpisodeLine
  rw [hair]
  rfl

/-- Witness for C9: a parseable UTC air timestamp renders the Eastern time
suffix. -/
theorem spec_c9_witness :
    renderEpisodeLine 0
      ⟨none, some 1, some 2, some "Pilot", none, some "2024-03-05T23:30:00Z",
        true, none, none⟩ =
      "  - S01E02 - Pilot - 06:30 PM EST\n" := by
  have h := spec_c9 0
    ⟨none, some 1, some 2, some "Pilot", none, some "2024-03-05T23:30:00Z",
      true, none, none⟩
    "2024-03-05T23:30:00Z" ⟨2024, 3, 5, 23, 30, 0, some 0⟩ rfl (by decide) (by decide)
  rw [h.1]
  decide

/-- C10: a movie kept by the matcher whose composer-side re-extracted dates
(with timezone conversion) all differ from today renders with the label
`"Released Today"` and no time suffix. -/
theorem spec_c10 (sys : Int) (today : String) (m : Movie)
    (h1 : dnExtractDate sys m.digitalRelease ≠ some today)
    (h2 : dnExtractDate sys m.physicalRelease ≠ some today)
    (h3 : dnExtractDate sys m.inCinemas ≠ some today) :
    renderMovieLine sys today m =
      "- **" ++ titleStr m ++ "** (" ++ yearStr m ++ ") - " ++ "Released Today" ++ "\n" := by
  have hlabel : releaseLabel sys today m = "Released Today" := by
    unfold releaseLabel movieReleaseTypes
    rw [if_neg h1, if_neg h2, if_neg h3]
    rfl
  have htime : movieReleaseTime sys today m = "" := by
    unfold movieReleaseTime timeCandidate
    rw [if_neg h1, if_neg h2, if_neg h3]
    rfl
  unfold renderMovieLine
  rw [hlabel, htime, String.append_empty]

/-- Witness for C10: a movie matched only through the substring fallback
renders as `Released Today` with no time suffix. -/
theorem spec_c10_witness :
    movieIsToday "2024-03-05"
      ⟨some "B", some 1999, true, none, some "garbage 2024-03-05", none, none⟩ = true ∧
    renderMovieLine 0 "2024-03-05"
      ⟨some "B", some 1999, true, none, some "garbage 2024-03-05", none, none⟩ =
      "- **B** (1999) - Released Today\n" := by
  refine ⟨by decide, ?_⟩
  rw [spec_c10 0 "2024-03-05"
    ⟨some "B", some 1999, true, none, some "garbage 2024-03-05", none, none⟩
    (by decide) (by decide) (by decide)]
  decide
